import Mathlib

/-!
Shallow embedding of the scoring, matching and ranking engine of the
dish-recommendation app (source: `e.py`).

Python dictionaries read with `.get(key, default)` are embedded as structures
with `Option` fields and `Option.getD` at each use site; keys read with
`dict[key]` (which would raise `KeyError` when absent) are embedded as total
fields.  Detection confidences are floats in `[0,1]` compared against the
literal `0.7`; they are embedded as rationals, which models the comparison
exactly on the inputs the claims quantify over.  Python's `max()` raises
`ValueError` on an empty sequence; it is embedded as an `Option`-valued
maximum, and a computation that would raise is embedded as `none`.
-/

/-- A menu document from the `menu` collection.  `name` and `id` are accessed
with `item['name']` / `item['id']` (always present); the other fields are read
with `.get(key, default)` and are therefore optional. -/
structure MenuItem where
  name : String
  description : Option String := none
  ingredients : Option (List String) := none
  dietary_tags : Option (List String) := none
  id : String := ""
deriving DecidableEq, Repr

/-- A challenge-entry document from the `visual_challenges` collection.
Counter and flag fields are read with `.get`, hence optional; the submission
form also stores a float timestamp, omitted here because no scoring code
reads it. -/
structure ChallengeEntry where
  staff : String := ""
  dish : String := ""
  ingredients : List String := []
  style : String := ""
  trendy : Option Bool := none
  diet_match : Option Bool := none
  views : Option Nat := none
  likes : Option Nat := none
  orders : Option Nat := none
  id : String := ""
deriving DecidableEq, Repr

/-- Engagement scorer `calculate_score` (e.py lines 53-57): base score from the engagement
counters, plus 5 when `trendy` is truthy and 3 when `diet_match` is truthy.
Missing counters default to 0; a missing flag is falsy. -/
def calculate_score (entry : ChallengeEntry) : Nat :=
  let base_score := entry.views.getD 0 + entry.likes.getD 0 * 2 + entry.orders.getD 0 * 3
  let base_score := if entry.trendy.getD false then base_score + 5 else base_score
  let base_score := if entry.diet_match.getD false then base_score + 3 else base_score
  base_score

/-- Python's `max()` over a sequence: `none` on the empty sequence (where the
real `max` raises `ValueError`), otherwise the greatest element. -/
def pyListMax : List Nat → Option Nat
  | [] => none
  | x :: xs => some (xs.foldl Nat.max x)

/-- The composite searchable text of a menu item (e.py lines 126-131):
lower-cased name, description, ingredients and dietary tags joined by
single spaces. -/
def itemText (item : MenuItem) : String :=
  String.intercalate " "
    [item.name.toLower,
     (item.description.getD "").toLower,
     (String.intercalate " " (item.ingredients.getD [])).toLower,
     (String.intercalate " " (item.dietary_tags.getD [])).toLower]

/-- A matching-dish record (e.py lines 134-141). -/
structure MatchResult where
  name : String
  score : Nat
  description : String
  ingredients : List String
  dietary_tags : List String
  id : String
deriving DecidableEq, Repr

/-- The record appended for a matching item (e.py lines 134-141). -/
def mkMatch (item : MenuItem) (score : Nat) : MatchResult :=
  { name := item.name
    score := score
    description := item.description.getD ""
    ingredients := item.ingredients.getD []
    dietary_tags := item.dietary_tags.getD []
    id := item.id }

/-- The loop of e.py lines 125-141: for each menu item compute the maximum
fuzzy similarity over all detected labels against the item's composite text
and keep the item when that score exceeds 60.  The similarity metric `pr`
abstracts the external `fuzz.partial_ratio` library call (the spec fixes only
its 0-100 range).  The per-item `max(...)` raises on an empty label list,
hence the `Option`. -/
def collectMatches (pr : String → String → Nat) (labels : List String) :
    List MenuItem → Option (List MatchResult)
  | [] => some []
  | item :: rest =>
      match pyListMax (labels.map fun lab => pr lab (itemText item)) with
      | none => none
      | some score =>
          match collectMatches pr labels rest with
          | none => none
          | some tail => some (if 60 < score then mkMatch item score :: tail else tail)

/-- Stable insertion into a non-increasing list: walk past strictly greater
keys, stop at the first key `≤` the inserted one (so that an element inserted
from the left of the input stays left of equal-key elements). -/
def insDesc (k : α → Nat) (x : α) : List α → List α
  | [] => [x]
  | y :: ys => if k x < k y then y :: insDesc k x ys else x :: y :: ys

/-- Python's `sorted(l, key=k, reverse=True)`: the stable sort of `l` into
non-increasing key order (ties keep input order).  Stable sorts of a list
under a total preorder coincide, so this insertion formulation is the
extensional meaning of the library sort. -/
def sortDesc (k : α → Nat) : List α → List α
  | [] => []
  | x :: xs => insDesc k x (sortDesc k xs)

/-- Label matcher `matching_dishes` (e.py lines 124-142): collect items scoring above 60,
sort descending by score (stably) and keep the top 5. -/
def matching_dishes (pr : String → String → Nat) (labels : List String)
    (menu : List MenuItem) : Option (List MatchResult) :=
  (collectMatches pr labels menu).map fun ms =>
    (sortDesc (fun r => r.score) ms).take 5

/-- A concrete stand-in for the external fuzzy-similarity collaborator, used
only to instantiate witnesses: constant score 80 (inside the metric's 0-100
contract). -/
def prStub (_a _b : String) : Nat := 80

/-- Detection combination `combined_labels` (e.py lines 87-102): label-detection annotations are
filtered to confidence `> 0.7` at construction (line 88); object-localization
annotations (line 90) and the already lower-cased detected-text strings are
combined with them unfiltered; `list(set(...))` deduplicates (its iteration
order is unspecified in Python, so claims about it are membership claims). -/
def combined_labels (labelAnns objAnns : List (String × ℚ))
    (texts : List String) : List String :=
  let labels := labelAnns.filter fun p => p.2 > 7/10
  (((labels ++ objAnns).map fun p => p.1.toLower) ++ texts).dedup

/-- Glyph of a star rating: `stars` filled stars then `5 - stars` empty
stars. -/
def starGlyph (stars : Nat) : String :=
  String.mk (List.replicate stars '★' ++ List.replicate (5 - stars) '☆')

/-- Modelled from the spec: the Star Rating Normalizer `rate` (spec section
4.4) is described by the spec but absent from the part of the source under
`src/` (the file ends mid-way through the leaderboard loop).  Absent entry
yields `(0, "Not Rated")`; otherwise the raw score is
`views + 2*likes + 3*orders + (5 if trendy) + (3 if some profile diet tag
appears in the entry's ingredient list)` and
`stars = clamp(floor(raw / max_score * 5), 1, 5)`. -/
def rate (entry : Option ChallengeEntry) (profile_dietary : List String)
    (max_score : Nat) : Nat × String :=
  match entry with
  | none => (0, "Not Rated")
  | some e =>
      let raw := e.views.getD 0 + e.likes.getD 0 * 2 + e.orders.getD 0 * 3
        + (if e.trendy.getD false then 5 else 0)
        + (if profile_dietary.any (fun t => e.ingredients.contains t) then 3 else 0)
      let stars := min 5 (max 1 (raw * 5 / max_score))
      (stars, starGlyph stars)

/-- The inclusion test of the filter loop (e.py lines 253-256):
`(not dietary or any(d in tags for d in dietary)) and
 (not allergies or all(a not in ingredients for a in allergies))`. -/
def keepItem (dietary allergies : List String) (item : MenuItem) : Bool :=
  (dietary.isEmpty || dietary.any fun d => (item.dietary_tags.getD []).contains d)
    && (allergies.isEmpty || allergies.all fun a => !((item.ingredients.getD []).contains a))

/-- A filtered-menu row: the copied item plus the two keys the loop adds
(e.py lines 257-259). -/
structure FilteredItem where
  base : MenuItem
  portion_size : String
  ingredient_swap : String
deriving DecidableEq, Repr

/-- Profile filter `filtered_menu` (e.py lines 248-260): keep the items passing the
dietary/allergy test, in menu order, each copied and annotated with the
chosen portion size and ingredient swap. -/
def filtered_menu (menu : List MenuItem) (dietary allergies : List String)
    (portion swap : String) : List FilteredItem :=
  menu.filterMap fun item =>
    if keepItem dietary allergies item then
      some { base := item, portion_size := portion, ingredient_swap := swap }
    else none

/-- Ranking `leaderboard` (e.py line 320): challenge entries stably sorted descending
by `calculate_score`. -/
def leaderboard (entries : List ChallengeEntry) : List ChallengeEntry :=
  sortDesc calculate_score entries

/-- The displayed slice `leaderboard[:5]` (e.py line 321). -/
def leaderboard_top5 (entries : List ChallengeEntry) : List ChallengeEntry :=
  (leaderboard entries).take 5

/-! ### Properties of the stable descending sort -/

theorem insDesc_perm (k : α → Nat) (x : α) (l : List α) :
    (insDesc k x l).Perm (x :: l) := by
  induction l with
  | nil => simp [insDesc]
  | cons y ys ih =>
    simp only [insDesc]
    split
    · exact (ih.cons y).trans (List.Perm.swap x y ys)
    · exact List.Perm.refl _

theorem sortDesc_perm (k : α → Nat) (l : List α) : (sortDesc k l).Perm l := by
  induction l with
  | nil => simp [sortDesc]
  | cons x xs ih => exact (insDesc_perm k x (sortDesc k xs)).trans (ih.cons x)

theorem insDesc_pairwise (k : α → Nat) (x : α) {l : List α}
    (h : l.Pairwise fun a b => k b ≤ k a) :
    (insDesc k x l).Pairwise fun a b => k b ≤ k a := by
  induction l with
  | nil => simp [insDesc]
  | cons y ys ih =>
    rw [List.pairwise_cons] at h
    obtain ⟨hy, hys⟩ := h
    simp only [insDesc]
    split
    · rename_i hlt
      rw [List.pairwise_cons]
      refine ⟨fun z hz => ?_, ih hys⟩
      rcases List.mem_cons.mp ((insDesc_perm k x ys).mem_iff.mp hz) with hz | hz
      · exact hz ▸ Nat.le_of_lt hlt
      · exact hy z hz
    · rename_i hge
      rw [List.pairwise_cons, List.pairwise_cons]
      refine ⟨fun z hz => ?_, hy, hys⟩
      rcases List.mem_cons.mp hz with hz | hz
      · exact hz ▸ Nat.le_of_not_lt hge
      · exact le_trans (hy z hz) (Nat.le_of_not_lt hge)

theorem sortDesc_pairwise (k : α → Nat) (l : List α) :
    (sortDesc k l).Pairwise fun a b => k b ≤ k a := by
  induction l with
  | nil => simp [sortDesc]
  | cons x xs ih => exact insDesc_pairwise k x ih

theorem insDesc_filter_key (k : α → Nat) (c : Nat) (x : α) (l : List α) :
    (insDesc k x l).filter (fun a => k a == c)
      = ((x :: l).filter fun a => k a == c) := by
  induction l with
  | nil => rfl
  | cons y ys ih =>
    by_cases hxy : k x < k y
    · have h1 : insDesc k x (y :: ys) = y :: insDesc k x ys := by
        simp [insDesc, hxy]
      by_cases hy : k y = c
      · have hx : ¬ (k x = c) := by omega
        simp [h1, List.filter_cons, hy, hx, beq_iff_eq] at ih ⊢
        simpa [hx] using ih
      · simp only [h1, List.filter_cons, beq_iff_eq] at ih ⊢
        simp only [ih]
        simp [List.filter_cons, hy]
    · have h1 : insDesc k x (y :: ys) = x :: y :: ys := by
        simp [insDesc, hxy]
      rw [h1]

theorem sortDesc_filter_key (k : α → Nat) (c : Nat) (l : List α) :
    (sortDesc k l).filter (fun a => k a == c) = l.filter fun a => k a == c := by
  induction l with
  | nil => rfl
  | cons x xs ih =>
    simp only [sortDesc]
    rw [insDesc_filter_key]
    simp only [List.filter_cons, ih]

theorem filter_pfx (p : α → Bool) {l₁ l₂ : List α} (h : l₁ <+: l₂) :
    l₁.filter p <+: l₂.filter p := by
  obtain ⟨t, rfl⟩ := h
  exact ⟨t.filter p, (List.filter_append _ _).symm⟩

/-! ### Bounds on the Python maximum and the collected matches -/

theorem foldl_max_le {b : Nat} :
    ∀ (xs : List Nat) (acc : Nat), acc ≤ b → (∀ x ∈ xs, x ≤ b) →
      xs.foldl Nat.max acc ≤ b
  | [], _, hacc, _ => hacc
  | x :: xs, acc, hacc, h => by
      refine foldl_max_le xs _ ?_ fun z hz => h z (by simp [hz])
      exact Nat.max_le.mpr ⟨hacc, h x (by simp)⟩

theorem pyListMax_le {b : Nat} {l : List Nat} (hb : ∀ x ∈ l, x ≤ b)
    {m : Nat} (hm : pyListMax l = some m) : m ≤ b := by
  cases l with
  | nil => simp [pyListMax] at hm
  | cons x xs =>
    simp only [pyListMax, Option.some.injEq] at hm
    subst hm
    exact foldl_max_le xs x (hb x (by simp)) fun z hz => hb z (by simp [hz])

theorem collectMatches_mem {pr : String → String → Nat} {labels : List String}
    {menu : List MenuItem} {ms : List MatchResult}
    (h : collectMatches pr labels menu = some ms) :
    ∀ r ∈ ms, 60 < r.score ∧ ∃ item ∈ menu,
      pyListMax (labels.map fun lab => pr lab (itemText item)) = some r.score := by
  induction menu generalizing ms with
  | nil =>
    intro r hr
    simp only [collectMatches, Option.some.injEq] at h
    subst h
    simp at hr
  | cons item rest ih =>
    intro r hr
    rw [collectMatches] at h
    cases hmax : pyListMax (labels.map fun lab => pr lab (itemText item)) with
    | none => rw [hmax] at h; exact absurd h (by simp)
    | some score =>
      rw [hmax] at h
      cases hrest : collectMatches pr labels rest with
      | none => rw [hrest] at h; exact absurd h (by simp)
      | some tail =>
        rw [hrest] at h
        simp only [Option.some.injEq] at h
        subst h
        by_cases hsc : 60 < score
        · rw [if_pos hsc] at hr
          rcases List.mem_cons.mp hr with hr | hr
          · subst hr
            exact ⟨hsc, item, by simp, hmax⟩
          · obtain ⟨h60, it, hit, hmx⟩ := ih hrest r hr
            exact ⟨h60, it, by simp [hit], hmx⟩
        · rw [if_neg hsc] at hr
          obtain ⟨h60, it, hit, hmx⟩ := ih hrest r hr
          exact ⟨h60, it, by simp [hit], hmx⟩

/-! ### The filter condition as a proposition -/

theorem keepItem_iff (dietary allergies : List String) (item : MenuItem) :
    keepItem dietary allergies item = true
      ↔ (dietary = [] ∨ ∃ d ∈ dietary, d ∈ item.dietary_tags.getD [])
        ∧ (allergies = [] ∨ ∀ a ∈ allergies, a ∉ item.ingredients.getD []) := by
  simp [keepItem, List.isEmpty_iff, List.any_eq_true, List.all_eq_true,
    List.contains_iff_exists_mem_beq, beq_iff_eq]

theorem filtered_menu_base_eq_filter (menu : List MenuItem)
    (dietary allergies : List String) (portion swap : String) :
    (filtered_menu menu dietary allergies portion swap).map FilteredItem.base
      = menu.filter (keepItem dietary allergies) := by
  induction menu with
  | nil => rfl
  | cons item rest ih =>
    simp only [filtered_menu, List.filterMap_cons, List.filter_cons] at ih ⊢
    by_cases hk : keepItem dietary allergies item <;> simp [hk, ih]

/-! ### Sample data used by witnesses and counterexamples -/

/-- A concrete menu document. -/
def sampleItem : MenuItem :=
  { name := "Veggie Burger"
    description := some "grilled patty"
    ingredients := some ["lettuce", "bun"]
    dietary_tags := some ["Vegan"]
    id := "m1" }

/-- A second concrete menu document. -/
def pastaItem : MenuItem :=
  { name := "Zucchini Pasta"
    ingredients := some ["zucchini"]
    dietary_tags := some ["Keto"]
    id := "m2" }

/-- A concrete challenge entry. -/
def sampleEntry : ChallengeEntry :=
  { staff := "Alex"
    dish := "Tart"
    ingredients := ["apple", "flour"]
    style := "classic"
    trendy := some true
    diet_match := some false
    views := some 2
    likes := some 1
    orders := some 0
    id := "c1" }

/-! ### The claims -/

/-- C1: the engagement score of a challenge entry equals
`views + 2*likes + 3*orders`, plus 5 when `trendy` and 3 when `diet_match`;
an entry with every counter and flag missing scores 0; the entry with views
10, likes 5, orders 2, trendy true and diet_match false scores 31. -/
theorem C1_score_formula :
    (∀ (e : ChallengeEntry) (v l o : Nat) (t d : Bool),
        calculate_score { e with views := some v, likes := some l, orders := some o,
                                 trendy := some t, diet_match := some d }
          = v + 2 * l + 3 * o + (if t then 5 else 0) + (if d then 3 else 0))
    ∧ (∀ e : ChallengeEntry,
        calculate_score { e with views := none, likes := none, orders := none,
                                 trendy := none, diet_match := none } = 0)
    ∧ calculate_score { views := some 10, likes := some 5, orders := some 2,
                        trendy := some true, diet_match := some false } = 31 := by
  refine ⟨?_, fun e => rfl, by decide⟩
  intro e v l o t d
  simp only [calculate_score, Option.getD_some]
  cases t <;> cases d <;> simp <;> omega

/-- C9: increasing any single engagement counter while the other counters and
the flags stay fixed never decreases the engagement score. -/
theorem C9_score_monotone :
    ∀ (e : ChallengeEntry) (m n : Nat), m ≤ n →
      calculate_score { e with views := some m }
          ≤ calculate_score { e with views := some n }
      ∧ calculate_score { e with likes := some m }
          ≤ calculate_score { e with likes := some n }
      ∧ calculate_score { e with orders := some m }
          ≤ calculate_score { e with orders := some n } := by
  intro e m n h
  simp only [calculate_score, Option.getD_some]
  cases ht : e.trendy.getD false <;> cases hd : e.diet_match.getD false <;>
    simp <;> omega

/-- Witness for C9: a concrete entry and a concrete counter increase. -/
theorem C9_score_monotone_witness :
    calculate_score { sampleEntry with views := some 2 }
        ≤ calculate_score { sampleEntry with views := some 7 }
    ∧ calculate_score { sampleEntry with likes := some 2 }
        ≤ calculate_score { sampleEntry with likes := some 7 }
    ∧ calculate_score { sampleEntry with orders := some 2 }
        ≤ calculate_score { sampleEntry with orders := some 7 } :=
  C9_score_monotone sampleEntry 2 7 (by decide)

/-- C4: a present entry always rates between 1 and 5 stars (the clamp floor
applies even at raw score 0), and an absent entry rates exactly
`(0, "Not Rated")`. -/
theorem C4_rate_bounds :
    (∀ (e : ChallengeEntry) (pd : List String) (ms : Nat),
        1 ≤ (rate (some e) pd ms).1 ∧ (rate (some e) pd ms).1 ≤ 5)
    ∧ ∀ (pd : List String) (ms : Nat), rate none pd ms = (0, "Not Rated") := by
  refine ⟨fun e pd ms => ?_, fun pd ms => rfl⟩
  simp only [rate]
  exact ⟨le_min (by omega) (Nat.le_max_left _ _), Nat.min_le_left _ _⟩

/-- C7: an item is included in the filtered menu exactly when the dietary
rule and the allergy rule both pass, membership being case-sensitive exact
string equality. -/
theorem C7_filter_rule :
    ∀ (menu : List MenuItem) (dietary allergies : List String)
      (portion swap : String) (item : MenuItem),
      FilteredItem.mk item portion swap
          ∈ filtered_menu menu dietary allergies portion swap
        ↔ item ∈ menu
          ∧ (dietary = [] ∨ ∃ d ∈ dietary, d ∈ item.dietary_tags.getD [])
          ∧ (allergies = [] ∨ ∀ a ∈ allergies, a ∉ item.ingredients.getD []) := by
  intro menu dietary allergies portion swap item
  rw [show (item ∈ menu
        ∧ (dietary = [] ∨ ∃ d ∈ dietary, d ∈ item.dietary_tags.getD [])
        ∧ (allergies = [] ∨ ∀ a ∈ allergies, a ∉ item.ingredients.getD []))
      = (item ∈ menu ∧ keepItem dietary allergies item = true) by
    rw [keepItem_iff]]
  simp only [filtered_menu, List.mem_filterMap]
  constructor
  · rintro ⟨it, hit, hsome⟩
    by_cases hk : keepItem dietary allergies it
    · rw [if_pos hk] at hsome
      simp only [Option.some.injEq, FilteredItem.mk.injEq] at hsome
      obtain ⟨rfl, -, -⟩ := hsome
      exact ⟨hit, hk⟩
    · rw [if_neg hk] at hsome
      exact absurd hsome (by simp)
  · rintro ⟨hmem, hk⟩
    exact ⟨item, hmem, by rw [if_pos hk]⟩

/-- C10: projected back to its underlying menu items, the filtered menu is an
order-preserving subsequence of the input menu, so no row is invented and no
input occurrence is used twice. -/
theorem C10_filter_sublist :
    ∀ (menu : List MenuItem) (dietary allergies : List String)
      (portion swap : String),
      List.Sublist
          ((filtered_menu menu dietary allergies portion swap).map FilteredItem.base)
          menu
      ∧ ∀ x : MenuItem,
          ((filtered_menu menu dietary allergies portion swap).map
              FilteredItem.base).count x ≤ menu.count x := by
  intro menu dietary allergies portion swap
  have hsub : List.Sublist
      ((filtered_menu menu dietary allergies portion swap).map FilteredItem.base)
      menu := by
    rw [filtered_menu_base_eq_filter]
    exact List.filter_sublist _
  exact ⟨hsub, fun x => hsub.count_le x⟩

/-- C8: the leaderboard is the stable descending sort of the entries by
engagement score (a permutation, non-increasing, ties in input order), and
the displayed top 5 is a truncation of that sorted list. -/
theorem C8_leaderboard_stable :
    ∀ entries : List ChallengeEntry,
      (leaderboard entries).Pairwise
          (fun a b => calculate_score b ≤ calculate_score a)
      ∧ (leaderboard entries).Perm entries
      ∧ (∀ c : Nat, (leaderboard entries).filter (fun e => calculate_score e == c)
            = entries.filter fun e => calculate_score e == c)
      ∧ leaderboard_top5 entries <+: leaderboard entries := by
  intro entries
  exact ⟨sortDesc_pairwise _ _, sortDesc_perm _ _,
    fun c => sortDesc_filter_key _ c _,
    ⟨(leaderboard entries).drop 5, List.take_append_drop 5 _⟩⟩

/-- C2 counterexample: on a non-empty menu, matching with an empty label set
does not return the empty list — the per-item `max()` over the empty label
sequence raises (embedded as `none`), for any choice of similarity metric. -/
theorem C2_counterexample : matching_dishes prStub [] [sampleItem] = none := rfl

/-- C2 amended: with an empty label set the matcher returns the empty result
list only on the empty menu; on a non-empty menu the per-item maximum over an
empty set is an error (Python `max` raises `ValueError`), not score 0. -/
theorem C2_empty_labels :
    ∀ (pr : String → String → Nat) (menu : List MenuItem),
      matching_dishes pr [] menu = if menu.isEmpty then some [] else none := by
  intro pr menu
  cases menu with
  | nil => rfl
  | cons item rest => rfl

/-- C3 counterexample: an object-localization annotation with confidence 1/2
reaches the matcher's label set even though no detection pair clears the 0.7
threshold. -/
theorem C3_counterexample :
    ¬ (∀ s ∈ combined_labels [] [("Cake", (1:ℚ)/2)] [],
        ∃ p ∈ ([] : List (String × ℚ)) ++ [("Cake", (1:ℚ)/2)],
          (7:ℚ)/10 < p.2 ∧ s = p.1.toLower) := by
  intro h
  have h1 : "Cake".toLower = "cake" := by
    show String.map Char.toLower "Cake" = "cake"
    rw [String.map_eq]
    decide
  have hmem : "cake" ∈ combined_labels [] [("Cake", (1:ℚ)/2)] [] := by
    simp [combined_labels, h1]
  obtain ⟨p, hp, hconf, -⟩ := h "cake" hmem
  simp only [List.nil_append, List.mem_singleton] at hp
  subst hp
  norm_num at hconf

/-- C3 amended: the confidence filter applies only to label-detection
annotations; in the absence of object-localization and text detections,
every label fed into the matcher is the lower-cased description of an
annotation with confidence strictly above 0.7 (object and text detections
enter the label set unfiltered). -/
theorem C3_label_filter :
    ∀ (labelAnns : List (String × ℚ)) (s : String),
      s ∈ combined_labels labelAnns [] [] →
      ∃ p ∈ labelAnns, (7:ℚ)/10 < p.2 ∧ s = p.1.toLower := by
  intro L s hs
  simp only [combined_labels, List.append_nil, List.mem_dedup, List.mem_map,
    List.mem_filter, decide_eq_true_eq, gt_iff_lt] at hs
  obtain ⟨p, ⟨hpL, hconf⟩, hlow⟩ := hs
  exact ⟨p, hpL, hconf, hlow.symm⟩

/-- Witness for C3 amended: a single label annotation at confidence 9/10. -/
theorem C3_label_filter_witness :
    ∃ p ∈ [("Burger", (9:ℚ)/10)], (7:ℚ)/10 < p.2 ∧ "burger" = p.1.toLower :=
  C3_label_filter [("Burger", (9:ℚ)/10)] "burger" (by
    have h1 : "Burger".toLower = "burger" := by
      show String.map Char.toLower "Burger" = "burger"
      rw [String.map_eq]
      decide
    norm_num [combined_labels, h1])

/-- C5: whenever the matcher succeeds and the similarity metric keeps its
0-100 contract, at most 5 results are returned and every returned similarity
score s satisfies 60 < s ≤ 100. -/
theorem C5_match_bounds :
    ∀ (pr : String → String → Nat) (labels : List String) (menu : List MenuItem)
      (res : List MatchResult),
      (∀ a b, pr a b ≤ 100) →
      matching_dishes pr labels menu = some res →
      res.length ≤ 5 ∧ ∀ r ∈ res, 60 < r.score ∧ r.score ≤ 100 := by
  intro pr labels menu res hpr h
  simp only [matching_dishes, Option.map_eq_some'] at h
  obtain ⟨ms, hms, hres⟩ := h
  subst hres
  constructor
  · exact le_trans (le_of_eq (List.length_take 5 _)) (Nat.min_le_left _ _)
  · intro r hr
    have hr1 : r ∈ sortDesc (fun r => r.score) ms :=
      (List.take_sublist 5 _).subset hr
    have hr2 : r ∈ ms := (sortDesc_perm _ ms).mem_iff.mp hr1
    obtain ⟨h60, item, hitem, hmax⟩ := collectMatches_mem hms r hr2
    refine ⟨h60, pyListMax_le ?_ hmax⟩
    intro x hx
    obtain ⟨lab, -, rfl⟩ := List.mem_map.mp hx
    exact hpr _ _

/-- Witness for C5: the stub metric, one label and a one-item menu. -/
theorem C5_match_bounds_witness :
    [mkMatch sampleItem 80].length ≤ 5
    ∧ ∀ r ∈ [mkMatch sampleItem 80], 60 < r.score ∧ r.score ≤ 100 :=
  C5_match_bounds prStub ["burger"] [sampleItem] [mkMatch sampleItem 80]
    (fun a b => by norm_num [prStub]) rfl

/-- C6: the matcher's output is non-increasing in score; for every score
value the returned results with that score are an initial segment of the
collected (menu-ordered) results with that score, so ties keep menu order;
and the output is a prefix of the full stable sort of the collected results
(the top-5 truncation happens after sorting). -/
theorem C6_match_order :
    ∀ (pr : String → String → Nat) (labels : List String) (menu : List MenuItem)
      (ms res : List MatchResult),
      collectMatches pr labels menu = some ms →
      matching_dishes pr labels menu = some res →
      res.Pairwise (fun a b => b.score ≤ a.score)
      ∧ (∀ c : Nat, res.filter (fun r => r.score == c)
            <+: ms.filter fun r => r.score == c)
      ∧ res <+: sortDesc (fun r => r.score) ms
      ∧ (sortDesc (fun r => r.score) ms).Perm ms := by
  intro pr labels menu ms res hc h
  simp only [matching_dishes, hc, Option.map_some', Option.some.injEq] at h
  subst h
  have hpfx : (sortDesc (fun r => r.score) ms).take 5
      <+: sortDesc (fun r => r.score) ms :=
    ⟨(sortDesc (fun r => r.score) ms).drop 5, List.take_append_drop 5 _⟩
  refine ⟨?_, fun c => ?_, hpfx, sortDesc_perm _ ms⟩
  · exact (sortDesc_pairwise (fun r => r.score) ms).sublist (List.take_sublist 5 _)
  · have h1 := filter_pfx (fun r => r.score == c) hpfx
    rwa [sortDesc_filter_key (fun r => r.score) c ms] at h1

/-- Witness for C6: two tied items keep their menu order in the output. -/
theorem C6_match_order_witness :
    [mkMatch sampleItem 80, mkMatch pastaItem 80].Pairwise
        (fun a b => b.score ≤ a.score)
    ∧ (∀ c : Nat,
        [mkMatch sampleItem 80, mkMatch pastaItem 80].filter
            (fun r => r.score == c)
          <+: [mkMatch sampleItem 80, mkMatch pastaItem 80].filter
            fun r => r.score == c)
    ∧ [mkMatch sampleItem 80, mkMatch pastaItem 80]
        <+: sortDesc (fun r => r.score) [mkMatch sampleItem 80, mkMatch pastaItem 80]
    ∧ (sortDesc (fun r => r.score)
        [mkMatch sampleItem 80, mkMatch pastaItem 80]).Perm
        [mkMatch sampleItem 80, mkMatch pastaItem 80] :=
  C6_match_order prStub ["tart"] [sampleItem, pastaItem]
    [mkMatch sampleItem 80, mkMatch pastaItem 80]
    [mkMatch sampleItem 80, mkMatch pastaItem 80] rfl rfl
